import Mathlib

/-!
Verification development for the i-PI force/optimization core.

The Python sources are shallowly embedded over exact arithmetic:
`numpy` float arrays over a beads × coordinates layout become nested
lists of real numbers, integer/float scalar configuration values become
`ℤ`/`ℚ`, and exceptions become `Except`/`Option` results.
-/

namespace IPI

/-! ## Vector model for `ipi/engine/geop.py`

A bead row is a flattened list of per-atom 3-vector components; a beads
array (`numpy` shape `(nbeads, 3*natoms)`) is a list of rows.  `numpy`
elementwise operations become `zipWith`/`map`, `.flatten()` becomes
`List.join`, and `np.dot` on flattened arrays becomes `dot`. -/

abbrev Vec := List ℝ

/-- `numpy` beads-shaped array: one flattened coordinate row per bead. -/
abbrev Beads := List Vec

/-- `np.dot(a, b)` on flat (1-D) arrays. -/
def dot (a b : Vec) : ℝ := (List.zipWith (fun x y => x * y) a b).sum

/-- Elementwise subtraction of flat arrays (`a - b`). -/
def vsub (a b : Vec) : Vec := List.zipWith (fun x y => x - y) a b

/-- `.flatten()` of a beads-shaped array. -/
def flat (x : Beads) : Vec := x.flatten

/-- `np.dot(a.flatten(), b.flatten())` for beads-shaped arrays. -/
def bdot (a b : Beads) : ℝ := dot (flat a) (flat b)

/-- Elementwise sum of two beads-shaped arrays. -/
def badd (a b : Beads) : Beads := List.zipWith (List.zipWith (fun x y => x + y)) a b

/-- Scalar times beads-shaped array (`c * a`). -/
def bsmul (c : ℝ) (a : Beads) : Beads := a.map (List.map (fun t => c * t))

/-- Beads-shaped array times scalar (`a * c`). -/
def bmulS (a : Beads) (c : ℝ) : Beads := a.map (List.map (fun t => t * c))

/-- Beads-shaped array divided elementwise by a scalar (`a / c`). -/
noncomputable def bdivs (a : Beads) (c : ℝ) : Beads := a.map (List.map (fun t => t / c))

/-- Elementwise negation (`-a`). -/
def bneg (a : Beads) : Beads := a.map (List.map (fun t => -t))

/-- Two beads-shaped arrays have the same `numpy` shape. -/
def sameShape (a b : Beads) : Prop := List.Forall₂ (fun r s => r.length = s.length) a b

/-! ### Basic lemmas about the vector model -/

theorem dot_nil_left (b : Vec) : dot [] b = 0 := by
  simp [dot]

theorem dot_self_nonneg (v : Vec) : 0 ≤ dot v v := by
  induction v with
  | nil => simp [dot]
  | cons a l ih =>
      have h : dot (a :: l) (a :: l) = a * a + dot l l := by
        simp [dot]
      rw [h]
      exact add_nonneg (mul_self_nonneg a) ih

theorem dot_map_div (v : Vec) (c : ℝ) :
    dot (v.map (fun t => t / c)) (v.map (fun t => t / c)) = dot v v / (c * c) := by
  induction v with
  | nil => simp [dot]
  | cons a l ih =>
      have h1 : dot ((a :: l).map (fun t => t / c)) ((a :: l).map (fun t => t / c))
          = (a / c) * (a / c) + dot (l.map (fun t => t / c)) (l.map (fun t => t / c)) := by
        simp [dot]
      have h2 : dot (a :: l) (a :: l) = a * a + dot l l := by
        simp [dot]
      rw [h1, ih, h2, div_mul_div_comm, div_add_div_same]

theorem flat_map_map (g : ℝ → ℝ) (x : Beads) :
    flat (x.map (List.map g)) = (flat x).map g := by
  induction x with
  | nil => simp [flat]
  | cons r rs ih => simp [flat] at ih ⊢

theorem flat_bdivs (x : Beads) (c : ℝ) :
    flat (bdivs x c) = (flat x).map (fun t => t / c) := by
  simpa [bdivs] using flat_map_map (fun t => t / c) x

theorem bdot_bdivs (z : Beads) (c : ℝ) :
    bdot (bdivs z c) (bdivs z c) = bdot z z / (c * c) := by
  rw [bdot, flat_bdivs, dot_map_div]; rfl

theorem bdot_self_nonneg (z : Beads) : 0 ≤ bdot z z := dot_self_nonneg (flat z)

/-! ## `GeopMover.step` (`ipi/engine/geop.py`, lines 138-227)

The step's search-direction computation.  `f` is the current force
array `depstrip(self.forces.f)`, `f0`/`d0` are the persisted
`cg_old_f`/`cg_old_d`, `dprev` is the `BFGSMover` direction carried
over from the previous step. -/

/-- The optimizer mode string: `"sd"`, `"cg"` or `"bfgs"`. -/
inductive GeopMode where
  | sd
  | cg
  | bfgs
deriving DecidableEq

/-- Steepest-descent branch (lines 180-189): `gradf1 = dq1 = f` and
`dq1_unit = dq1 / np.sqrt(np.dot(gradf1.flatten(), gradf1.flatten()))`. -/
noncomputable def sd_dq1_unit (f : Beads) : Beads :=
  bdivs f (Real.sqrt (dot (flat f) (flat f)))

/-- Polak-Ribiere `beta` (line 202):
`np.dot(gradf1.flatten() - gradf0.flatten(), gradf1.flatten()) / np.dot(gradf0.flatten(), gradf0.flatten())`. -/
noncomputable def cg_beta (f f0 : Beads) : ℝ :=
  dot (vsub (flat f) (flat f0)) (flat f) / dot (flat f0) (flat f0)

/-- Conjugate-gradient trial direction (line 203):
`dq1 = gradf1 + max(0.0, beta) * dq0`. -/
noncomputable def cg_dq1 (f f0 d0 : Beads) : Beads :=
  badd f (bsmul (max 0 (cg_beta f f0)) d0)

/-- Conjugate-gradient unit direction (line 204):
`dq1_unit = dq1 / np.sqrt(np.dot(dq1.flatten(), dq1.flatten()))`. -/
noncomputable def cg_dq1_unit (f f0 d0 : Beads) : Beads :=
  bdivs (cg_dq1 f f0 d0) (Real.sqrt (dot (flat (cg_dq1 f f0 d0)) (flat (cg_dq1 f f0 d0))))

/-- `dq1_unit` of the non-BFGS branch (lines 180-204): the steepest-descent
formula when `mode == "sd" or step == 0`, the Polak-Ribiere formula
otherwise. -/
noncomputable def dq1_unit_of (mode : GeopMode) (step : ℕ) (f f0 d0 : Beads) : Beads :=
  if mode = GeopMode.sd ∨ step = 0 then sd_dq1_unit f else cg_dq1_unit f f0 d0

/-- Un-normalized `dq1` of the non-BFGS branch, stored into `cg_old_d`
(line 206). -/
noncomputable def dq1_of (mode : GeopMode) (step : ℕ) (f f0 d0 : Beads) : Beads :=
  if mode = GeopMode.sd ∨ step = 0 then f else cg_dq1 f f0 d0

/-- BFGS first-step direction (line 152):
`self.bfgsm.d = depstrip(self.forces.f) / np.sqrt(np.dot(self.forces.f.flatten(), self.forces.f.flatten()))`. -/
noncomputable def bfgs_d_step0 (f : Beads) : Beads :=
  bdivs f (Real.sqrt (dot (flat f) (flat f)))

/-- The search direction the step works with, for every mode.  For
`"bfgs"` after the first step the direction is the one left behind by
the previous `mintools.BFGS` call (`dprev`), which this module does not
compute. -/
noncomputable def stepDirection (mode : GeopMode) (step : ℕ) (f f0 d0 dprev : Beads) : Beads :=
  match mode with
  | GeopMode.bfgs => if step = 0 then bfgs_d_step0 f else dprev
  | GeopMode.sd => dq1_unit_of GeopMode.sd step f f0 d0
  | GeopMode.cg => dq1_unit_of GeopMode.cg step f f0 d0

/-! ### Fixed-atom zeroing (lines 209-213) -/

/-- Whether flat coordinate `j` belongs to a fixed atom: the loop zeroes
columns `3*i`, `3*i+1`, `3*i+2` of each bead row for every `i` in
`fixatoms`. -/
def isFixedCoord (fix : List ℕ) (j : ℕ) : Bool :=
  fix.any (fun i => j == 3 * i || j == 3 * i + 1 || j == 3 * i + 2)

/-- Zero out the fixed-atom columns of one bead row, tracking the column
index `j` of the head. -/
def zeroFixRowAux (fix : List ℕ) (j : ℕ) : Vec → Vec
  | [] => []
  | x :: xs => (if isFixedCoord fix j then 0 else x) :: zeroFixRowAux fix (j + 1) xs

/-- Zero out the fixed-atom columns of one bead row (`dqb[self.fixatoms*3] = 0.0`
and the two following components). -/
def zeroFixRow (fix : List ℕ) (row : Vec) : Vec := zeroFixRowAux fix 0 row

/-- The in-place zeroing loop over bead rows, guarded by
`if (len(self.fixatoms)>0)`. -/
def zeroFix (fix : List ℕ) (x : Beads) : Beads :=
  if 0 < fix.length then x.map (zeroFixRow fix) else x

/-- `LineMover.set_dir` (lines 52-55): the direction handed to the line
search is re-normalized, `self.d = mdir.copy()/np.sqrt(np.dot(mdir.flatten(), mdir.flatten()))`. -/
noncomputable def set_dir_d (mdir : Beads) : Beads :=
  bdivs mdir (Real.sqrt (dot (flat mdir) (flat mdir)))

/-- The direction `self.lm.d` actually used by the 1-D line search of a
non-BFGS step (line 215): `dq1_unit` with fixed atoms zeroed, passed
through `set_dir`. -/
noncomputable def lineDirection (mode : GeopMode) (step : ℕ) (fix : List ℕ)
    (f f0 d0 : Beads) : Beads :=
  set_dir_d (zeroFix fix (dq1_unit_of mode step f f0 d0))

/-! ### The persisted optimizer state of a steepest-descent /
conjugate-gradient step -/

/-- Persisted state consumed and produced by the non-BFGS branch of
`GeopMover.step`. -/
structure SDCGState where
  q : Beads
  cg_old_f : Beads
  cg_old_d : Beads
  ls_step : ℝ
  ls_adaptive : ℝ
  fixatoms : List ℕ

/-- One non-BFGS `GeopMover.step` (lines 180-224), parameterized by the
current force array `f` and by the displacement `x` returned by the
`min_brent` line search (external to this module):
stores `dq1`/`gradf1` into `cg_old_d`/`cg_old_f` (lines 206-207),
updates the adaptive initial step
`self.ls_options["step"] = x * adaptive + (1-adaptive) * step` (line 222)
and moves the configuration `self.beads.q += dq1_unit * x` (line 224),
where `dq1_unit` has had its fixed-atom components zeroed in place. -/
noncomputable def sdcgStep (mode : GeopMode) (step : ℕ) (s : SDCGState)
    (f : Beads) (x : ℝ) : SDCGState :=
  let dq1 := dq1_of mode step f s.cg_old_f s.cg_old_d
  let uz := zeroFix s.fixatoms (dq1_unit_of mode step f s.cg_old_f s.cg_old_d)
  { q := badd s.q (bmulS uz x)
    cg_old_f := f
    cg_old_d := dq1
    ls_step := x * s.ls_adaptive + (1 - s.ls_adaptive) * s.ls_step
    ls_adaptive := s.ls_adaptive
    fixatoms := s.fixatoms }

/-! ### Helper lemmas for the direction claims -/

theorem zipWith_add_map_zero_mul (r s : Vec) (h : r.length = s.length) :
    List.zipWith (fun x y => x + y) r (s.map (fun t => (0:ℝ) * t)) = r := by
  induction r generalizing s with
  | nil => rfl
  | cons a l ih =>
      cases s with
      | nil => exact absurd h (by simp)
      | cons b m =>
          have h' : l.length = m.length := by simpa using h
          have hhead : a + 0 * b = a := by rw [zero_mul, add_zero]
          calc List.zipWith (fun x y => x + y) (a :: l) ((b :: m).map (fun t => (0:ℝ) * t))
              = (a + 0 * b) :: List.zipWith (fun x y => x + y) l (m.map (fun t => (0:ℝ) * t)) := rfl
            _ = a :: l := by rw [hhead, ih m h']

theorem badd_bsmul_zero (f d0 : Beads) (h : sameShape f d0) :
    badd f (bsmul 0 d0) = f := by
  induction h with
  | nil => rfl
  | @cons r s tf td hr hrest ih =>
      have hcons : badd (r :: tf) (bsmul 0 (s :: td))
          = List.zipWith (fun x y => x + y) r (s.map (fun t => (0:ℝ) * t))
            :: badd tf (bsmul 0 td) := rfl
      rw [hcons, zipWith_add_map_zero_mul r s hr, ih]

/-- Claim C1: in every mode (steepest descent, conjugate gradient, BFGS),
on the first optimization step (`step == 0`) the search direction equals
the unit-normalized negative gradient of the potential: the force array
divided by the Euclidean norm `sqrt(dot(f.flatten(), f.flatten()))`. -/
theorem first_step_direction (mode : GeopMode) (step : ℕ) (f f0 d0 dprev : Beads)
    (h : step = 0) :
    stepDirection mode step f f0 d0 dprev
      = bdivs f (Real.sqrt (dot (flat f) (flat f))) := by
  subst h
  cases mode <;>
    simp [stepDirection, dq1_unit_of, sd_dq1_unit, bfgs_d_step0]

theorem first_step_direction_witness :
    stepDirection GeopMode.cg 0 [[1, 0]] [] [] []
      = bdivs [[1, 0]] (Real.sqrt (dot (flat [[1, 0]]) (flat [[1, 0]]))) :=
  first_step_direction GeopMode.cg 0 [[1, 0]] [] [] [] rfl

/-- Claim C2: on every conjugate-gradient step after the first, the new
direction is `gradf1 + max(0, beta) * dq0` with the Polak-Ribiere
`beta = dot(gradf1 - gradf0, gradf1) / dot(gradf0, gradf0)` computed from
the stored previous force `f0` and direction `d0`, and the result is then
unit-normalized. -/
theorem cg_direction_formula (step : ℕ) (f f0 d0 dprev : Beads) (h : step ≠ 0) :
    stepDirection GeopMode.cg step f f0 d0 dprev
      = (fun beta =>
          (fun d => bdivs d (Real.sqrt (dot (flat d) (flat d))))
            (badd f (bsmul (max 0 beta) d0)))
          (dot (vsub (flat f) (flat f0)) (flat f) / dot (flat f0) (flat f0)) := by
  simp [stepDirection, dq1_unit_of, h, cg_dq1_unit, cg_dq1, cg_beta]

theorem cg_direction_formula_witness :
    stepDirection GeopMode.cg 1 [[1, 0]] [[0, 1]] [[2, 3]] []
      = (fun beta =>
          (fun d => bdivs d (Real.sqrt (dot (flat d) (flat d))))
            (badd [[1, 0]] (bsmul (max 0 beta) [[2, 3]])))
          (dot (vsub (flat [[1, 0]]) (flat [[0, 1]])) (flat [[1, 0]])
            / dot (flat [[0, 1]]) (flat [[0, 1]])) :=
  cg_direction_formula 1 [[1, 0]] [[0, 1]] [[2, 3]] [] (by decide)

/-! ### Fixed-atom lemmas -/

theorem getD_zeroFixRowAux (fix : List ℕ) (l : Vec) (j k : ℕ)
    (h : isFixedCoord fix (j + k) = true) :
    (zeroFixRowAux fix j l).getD k 0 = 0 := by
  induction l generalizing j k with
  | nil => simp [zeroFixRowAux]
  | cons x xs ih =>
      cases k with
      | zero =>
          simp only [Nat.add_zero] at h
          simp [zeroFixRowAux, h]
      | succ k' =>
          have h' : isFixedCoord fix ((j + 1) + k') = true := by
            have : (j + 1) + k' = j + (k' + 1) := by omega
            rw [this]; exact h
          simpa [zeroFixRowAux] using ih (j + 1) k' h'

theorem zeroFixRow_getD (fix : List ℕ) (row : Vec) (j : ℕ)
    (h : isFixedCoord fix j = true) :
    (zeroFixRow fix row).getD j 0 = 0 := by
  have h0 : isFixedCoord fix (0 + j) = true := by simpa using h
  simpa [zeroFixRow] using getD_zeroFixRowAux fix row 0 j h0

theorem getD_map_div (l : Vec) (c : ℝ) (j : ℕ) :
    (l.map (fun t => t / c)).getD j 0 = l.getD j 0 / c := by
  induction l generalizing j with
  | nil => simp
  | cons a t ih =>
      cases j with
      | zero => rfl
      | succ j' => simpa using ih j'

theorem isFixedCoord_of_mem (fix : List ℕ) (i : ℕ) (hi : i ∈ fix) :
    isFixedCoord fix (3 * i) = true ∧ isFixedCoord fix (3 * i + 1) = true
      ∧ isFixedCoord fix (3 * i + 2) = true := by
  refine ⟨?_, ?_, ?_⟩ <;>
    · rw [isFixedCoord, List.any_eq_true]
      exact ⟨i, hi, by simp⟩

/-- Claim C3: with a non-empty `fixatoms` list, the direction handed to the
line search has all three coordinates of every fixed atom equal to zero in
every bead row, and (as long as the zeroed direction is not the zero
vector) it is a unit vector. -/
theorem fixed_atoms_direction (mode : GeopMode) (step : ℕ) (f f0 d0 : Beads)
    (fix : List ℕ) (hfix : fix ≠ [])
    (hz : bdot (zeroFix fix (dq1_unit_of mode step f f0 d0))
            (zeroFix fix (dq1_unit_of mode step f f0 d0)) ≠ 0) :
    (∀ row ∈ lineDirection mode step fix f f0 d0, ∀ i ∈ fix,
        row.getD (3 * i) 0 = 0 ∧ row.getD (3 * i + 1) 0 = 0
          ∧ row.getD (3 * i + 2) 0 = 0)
    ∧ bdot (lineDirection mode step fix f f0 d0)
        (lineDirection mode step fix f f0 d0) = 1 := by
  set u := dq1_unit_of mode step f f0 d0 with hu
  set z := zeroFix fix u with hzdef
  set c := Real.sqrt (dot (flat z) (flat z)) with hc
  have hldir : lineDirection mode step fix f f0 d0 = bdivs z c := rfl
  constructor
  · intro row hrow i hi
    rw [hldir] at hrow
    rcases List.mem_map.1 hrow with ⟨r, hrz, hrow_eq⟩
    have hpos : 0 < fix.length := List.length_pos.2 hfix
    have hzmap : z = u.map (zeroFixRow fix) := by rw [hzdef, zeroFix, if_pos hpos]
    rw [hzmap] at hrz
    rcases List.mem_map.1 hrz with ⟨r0, _, hr_eq⟩
    have hfc := isFixedCoord_of_mem fix i hi
    refine ⟨?_, ?_, ?_⟩ <;>
      · rw [← hrow_eq, getD_map_div, ← hr_eq, zeroFixRow_getD] <;>
          first
            | exact hfc.1
            | exact hfc.2.1
            | exact hfc.2.2
            | exact zero_div c
  · rw [hldir]
    have h1 : bdivs z c = set_dir_d z := rfl
    have h2 : bdot (bdivs z c) (bdivs z c) = bdot z z / (c * c) := bdot_bdivs z c
    have h3 : c * c = bdot z z := Real.mul_self_sqrt (bdot_self_nonneg z)
    rw [h2, h3, div_self hz]

theorem fixed_atoms_direction_witness :
    bdot (lineDirection GeopMode.sd 0 [0] [[0, 0, 0, 1, 0, 0]] [] [])
      (lineDirection GeopMode.sd 0 [0] [[0, 0, 0, 1, 0, 0]] [] []) = 1 :=
  (fixed_atoms_direction GeopMode.sd 0 [[0, 0, 0, 1, 0, 0]] [] [] [0]
    (by decide)
    (by norm_num [dq1_unit_of, sd_dq1_unit, bdivs, flat, dot, bdot, zeroFix,
          zeroFixRow, zeroFixRowAux, isFixedCoord, Real.sqrt_one])).2

/-- Claim C6: whenever the Polak-Ribiere `beta` computed from the current
and previous stored forces is at most 0, the conjugate-gradient step
produces exactly the steepest-descent direction: the unit-normalized
current force, with no contribution from the previous direction. -/
theorem beta_clamped_gives_steepest_descent (step : ℕ) (f f0 d0 dprev : Beads)
    (hstep : step ≠ 0) (hbeta : cg_beta f f0 ≤ 0) (hshape : sameShape f d0) :
    stepDirection GeopMode.cg step f f0 d0 dprev = sd_dq1_unit f := by
  have hdq1 : cg_dq1 f f0 d0 = f := by
    rw [cg_dq1, max_eq_left hbeta]
    exact badd_bsmul_zero f d0 hshape
  simp [stepDirection, dq1_unit_of, hstep, cg_dq1_unit, hdq1, sd_dq1_unit]

theorem beta_clamped_witness :
    stepDirection GeopMode.cg 1 [[1, 0]] [[1, 0]] [[2, 3]] [] = sd_dq1_unit [[1, 0]] :=
  beta_clamped_gives_steepest_descent 1 [[1, 0]] [[1, 0]] [[2, 3]] []
    (by decide)
    (by norm_num [cg_beta, dot, vsub, flat])
    (by simp [sameShape])

/-! ## `GeopMover.bind` (lines 121-136) -/

/-- The size check `GeopMover.bind` applies to one persisted
conjugate-gradient state vector: a size-0 vector is replaced by
`np.zeros(beads.q.size)`, a nonzero-size mismatch raises `ValueError`,
and a matching vector is kept. -/
def bindStateVec (v : Vec) (n : ℕ) (msg : String) : Except String Vec :=
  if v.length ≠ n then
    if v.length = 0 then Except.ok (List.replicate n 0) else Except.error msg
  else Except.ok v

/-- The `ValueError` message for a mismatched persisted force. -/
def cgForceMsg : String := "Conjugate gradient force size does not match system size"

/-- The `ValueError` message for a mismatched persisted direction. -/
def cgDirMsg : String := "Conjugate gradient direction size does not match system size"

/-- `GeopMover.bind`: validates `cg_old_f` then `cg_old_d` against the
live configuration size `beads.q.size`; the first failing check raises. -/
def geopBind (old_f old_d : Vec) (n : ℕ) : Except String (Vec × Vec) :=
  match bindStateVec old_f n cgForceMsg with
  | Except.error e => Except.error e
  | Except.ok f =>
      match bindStateVec old_d n cgDirMsg with
      | Except.error e => Except.error e
      | Except.ok d => Except.ok (f, d)

theorem bindStateVec_error_iff (v : Vec) (n : ℕ) (msg : String) :
    (∃ e, bindStateVec v n msg = Except.error e) ↔ (v.length ≠ 0 ∧ v.length ≠ n) := by
  unfold bindStateVec
  split_ifs with h1 h2 <;> simp_all

theorem bindStateVec_zero (v : Vec) (n : ℕ) (msg : String) (h : v.length = 0) :
    bindStateVec v n msg = Except.ok (List.replicate n 0) := by
  have hv : v = [] := List.length_eq_zero.1 h
  subst hv
  by_cases hn : n = 0
  · subst hn; rfl
  · rw [bindStateVec, if_pos (show ([] : Vec).length ≠ n from Ne.symm hn),
      if_pos (show ([] : Vec).length = 0 from rfl)]

/-- Claim C4: binding raises exactly when a persisted conjugate-gradient
state vector has nonzero size different from the live configuration's
size; size-0 persisted vectors are initialized to zero vectors of the
configuration's size and binding succeeds. -/
theorem bind_size_check (old_f old_d : Vec) (n : ℕ) :
    ((∃ e, geopBind old_f old_d n = Except.error e) ↔
      ((old_f.length ≠ 0 ∧ old_f.length ≠ n) ∨ (old_d.length ≠ 0 ∧ old_d.length ≠ n)))
    ∧ (old_f.length = 0 → old_d.length = 0 →
        geopBind old_f old_d n = Except.ok (List.replicate n 0, List.replicate n 0)) := by
  constructor
  · rcases hf : bindStateVec old_f n cgForceMsg with ef | fv
    · have h1 : old_f.length ≠ 0 ∧ old_f.length ≠ n :=
        (bindStateVec_error_iff old_f n cgForceMsg).1 ⟨ef, hf⟩
      have hg : geopBind old_f old_d n = Except.error ef := by
        rw [geopBind, hf]
      simp [hg, h1]
    · have h1 : ¬(old_f.length ≠ 0 ∧ old_f.length ≠ n) := by
        intro hc
        rcases (bindStateVec_error_iff old_f n cgForceMsg).2 hc with ⟨e, he⟩
        rw [hf] at he
        exact Except.noConfusion he
      rcases hd : bindStateVec old_d n cgDirMsg with ed | dv
      · have h2 : old_d.length ≠ 0 ∧ old_d.length ≠ n :=
          (bindStateVec_error_iff old_d n cgDirMsg).1 ⟨ed, hd⟩
        have hg : geopBind old_f old_d n = Except.error ed := by
          rw [geopBind, hf, hd]
        simp [hg, h1, h2]
      · have h2 : ¬(old_d.length ≠ 0 ∧ old_d.length ≠ n) := by
          intro hc
          rcases (bindStateVec_error_iff old_d n cgDirMsg).2 hc with ⟨e, he⟩
          rw [hd] at he
          exact Except.noConfusion he
        have hg : geopBind old_f old_d n = Except.ok (fv, dv) := by
          rw [geopBind, hf, hd]
        simp only [hg]
        constructor
        · rintro ⟨e, he⟩
          exact Except.noConfusion he
        · rintro (hc | hc)
          · exact absurd hc h1
          · exact absurd hc h2
  · intro h0f h0d
    rw [geopBind, bindStateVec_zero old_f n cgForceMsg h0f,
      bindStateVec_zero old_d n cgDirMsg h0d]

theorem bind_size_check_witness :
    geopBind [] [] 2 = Except.ok (List.replicate 2 0, List.replicate 2 0) :=
  (bind_size_check [] [] 2).2 rfl rfl

/-- Claim C5: after a line search returning displacement `x`, the persisted
initial-step estimate becomes `adaptive * x + (1 - adaptive) * old_step`;
with adaptivity weight 0 it is unchanged, with weight 1 it equals `x`. -/
theorem adaptive_step_update (mode : GeopMode) (step : ℕ) (s : SDCGState)
    (f : Beads) (x : ℝ) :
    (sdcgStep mode step s f x).ls_step
        = s.ls_adaptive * x + (1 - s.ls_adaptive) * s.ls_step
    ∧ (s.ls_adaptive = 0 → (sdcgStep mode step s f x).ls_step = s.ls_step)
    ∧ (s.ls_adaptive = 1 → (sdcgStep mode step s f x).ls_step = x) := by
  refine ⟨?_, ?_, ?_⟩
  · show x * s.ls_adaptive + (1 - s.ls_adaptive) * s.ls_step = _
    ring
  · intro h
    show x * s.ls_adaptive + (1 - s.ls_adaptive) * s.ls_step = _
    rw [h]; ring
  · intro h
    show x * s.ls_adaptive + (1 - s.ls_adaptive) * s.ls_step = _
    rw [h]; ring

theorem adaptive_step_update_witness :
    (sdcgStep GeopMode.sd 0 ⟨[], [], [], 5, 0, []⟩ [] 2).ls_step = 5 :=
  (adaptive_step_update GeopMode.sd 0 ⟨[], [], [], 5, 0, []⟩ [] 2).2.1 rfl

/-! ## `LineMover` / `BFGSMover` objective wrappers (lines 41-79) -/

/-- The engine-visible mutable state touched by the objective wrappers:
the live configuration `beads.q` and the movers' private copies. -/
structure MoverState where
  beads_q : Beads
  lm_dbeads_q : Beads
  bfgsm_dbeads_q : Beads

/-- Modelled from the spec: `beads.copy()` / `cell.copy()` /
`forces.copy(...)` live outside `src/`; per the spec the objective is
evaluated on "private copies of the beads, cell, and forces made at bind
time", so `bind` snapshots the live configuration by value into the
mover's private copy. -/
def moverBind (s : MoverState) : MoverState :=
  { s with lm_dbeads_q := s.beads_q, bfgsm_dbeads_q := s.beads_q }

/-- `LineMover.__call__` (lines 57-62): writes the displaced configuration
into the private copy, `self.dbeads.q = self.x0 + self.d * x`, and
evaluates potential and force there.  `pot`/`force` are the externally
computed potential and forces as functions of a configuration. -/
def lm_call (pot : Beads → ℝ) (force : Beads → Beads) (x0 d : Beads)
    (s : MoverState) (x : ℝ) : MoverState × ℝ × ℝ :=
  let q := badd x0 (bmulS d x)
  ({ s with lm_dbeads_q := q },
    pot q,
    - dot (flat (force q)) (flat d))

/-- `BFGSMover.__call__` (lines 75-79): writes the trial configuration
into the private copy, `self.dbeads.q = x`, and evaluates there. -/
def bfgsm_call (pot : Beads → ℝ) (force : Beads → Beads)
    (s : MoverState) (x : Beads) : MoverState × ℝ × Beads :=
  ({ s with bfgsm_dbeads_q := x }, pot x, bneg (force x))

/-- Claim C9: any number of line-search or BFGS objective evaluations
leaves the engine's live configuration `beads.q` unchanged — only the
movers' private copies are written — and the live configuration is
modified only by the final update `self.beads.q += dq1_unit * x` of the
step itself. -/
theorem objective_eval_frame (pot : Beads → ℝ) (force : Beads → Beads)
    (x0 d : Beads) (s : MoverState) (xs : List ℝ) (qs : List Beads) :
    (xs.foldl (fun t x => (lm_call pot force x0 d t x).1) s).beads_q = s.beads_q
    ∧ (qs.foldl (fun t q => (bfgsm_call pot force t q).1) s).beads_q = s.beads_q
    ∧ ∀ (mode : GeopMode) (step : ℕ) (st : SDCGState) (f : Beads) (y : ℝ),
        (sdcgStep mode step st f y).q
          = badd st.q (bmulS (zeroFix st.fixatoms
              (dq1_unit_of mode step f st.cg_old_f st.cg_old_d)) y) := by
  refine ⟨?_, ?_, ?_⟩
  · induction xs generalizing s with
    | nil => rfl
    | cons x rest ih =>
        rw [List.foldl_cons, ih]
        rfl
  · induction qs generalizing s with
    | nil => rfl
    | cons q rest ih =>
        rw [List.foldl_cons, ih]
        rfl
  · intro mode step st f y
    rfl

/-! ## `Input` / `InputValue` (`src/src/utils/inputvalue.py`)

Scalar values are modelled over `ℚ` (the Python floats, exactly).
`UnitMap` lives in the excluded `units` module and is passed in as a
function `um : String → String → Option ℚ`, where `um dim unit = some c`
means `unit` is a key of `UnitMap[dim]` with conversion factor `c`; the
`dtype` cast `self.type(value)` is passed in as `conv : ℚ → ℚ`. -/

/-- The scalar `InputValue` state relevant to `store`/`fetch`/`check`. -/
structure IVal where
  dimension : String
  units : String
  optional : Bool
  explicit : Bool
  valid : Option (List ℚ)
  value : Option ℚ

/-- `Input.check` (lines 136-148) extended by `InputValue.check`
(lines 427-436): unit compatibility, then the mandatory-field check, then
the valid-options check, in source order; `some msg` is a raised error. -/
def ivCheck (um : String → String → Option ℚ) (s : IVal) : Option String :=
  if (um s.dimension s.units).isSome = false then
    some ("Unit type " ++ s.units ++ " is not compatible with dimension " ++ s.dimension)
  else if (s.explicit || s.optional) = false then
    some "Uninitialized Input value of type InputValue"
  else
    match s.valid with
    | none => none
    | some opts =>
        match s.value with
        | some v => if v ∈ opts then none else some "is not a valid option"
        | none => some "AttributeError: value"

/-- `InputValue.store` (lines 406-416): converts via the field's `dtype`
and divides by `UnitMap[dimension][units]` when a dimension is declared.
All claims run under the hypothesis that `um s.dimension s.units` is
defined (a missing key would be a Python `KeyError`), so the factor is
read with a default. -/
def ivStore (um : String → String → Option ℚ) (conv : ℚ → ℚ) (s : IVal) (v : ℚ) : IVal :=
  let x := conv v
  let y := if s.dimension ≠ "undefined" then x / (um s.dimension s.units).getD 1 else x
  { s with explicit := true, value := some y }

/-- `InputValue.fetch` (lines 418-425): runs `check`, then returns the
stored value, multiplied back by `UnitMap[dimension][units]` when a
dimension is declared. -/
def ivFetch (um : String → String → Option ℚ) (s : IVal) : Except String ℚ :=
  match ivCheck um s with
  | some e => Except.error e
  | none =>
      match s.value with
      | none => Except.error "AttributeError: value"
      | some x =>
          Except.ok (if s.dimension ≠ "undefined" then x * (um s.dimension s.units).getD 1 else x)

/-- `Input.__init__` (lines 99-106) with `InputValue.__init__`
(lines 383-404): a `none` default makes the field required
(`_optional = False`); a `some` default makes it optional, is stored
immediately, and `_explicit` is then reset to `False`. -/
def ivInit (um : String → String → Option ℚ) (conv : ℚ → ℚ) (dim unitname : String)
    (default? : Option ℚ) (valid : Option (List ℚ)) : IVal :=
  let base : IVal :=
    { dimension := dim, units := unitname, optional := default?.isSome,
      explicit := false, valid := valid, value := none }
  match default? with
  | none => base
  | some d => { ivStore um conv base d with explicit := false }

/-- Claim C8: a field declared without a default is required — checking or
fetching it before it is explicitly set raises — while a field declared
with a default is optional, and fetch returns the (type-converted)
default when the field was never set. -/
theorem required_field_check (um : String → String → Option ℚ) (conv : ℚ → ℚ)
    (dim unitname : String) (valid : Option (List ℚ)) (c : ℚ)
    (hc : um dim unitname = some c) (hc0 : c ≠ 0) :
    (∃ e, ivCheck um (ivInit um conv dim unitname none valid) = some e)
    ∧ (∃ e, ivFetch um (ivInit um conv dim unitname none valid) = Except.error e)
    ∧ ∀ d, ivFetch um (ivInit um conv dim unitname (some d) none) = Except.ok (conv d) := by
  have hfac : (um dim unitname).getD 1 = c := by rw [hc]; rfl
  have h1 : ivCheck um (ivInit um conv dim unitname none valid)
      = some "Uninitialized Input value of type InputValue" := by
    simp [ivCheck, ivInit, hc]
  have h2 : ivFetch um (ivInit um conv dim unitname none valid)
      = Except.error "Uninitialized Input value of type InputValue" := by
    unfold ivFetch
    rw [h1]
  refine ⟨⟨_, h1⟩, ⟨_, h2⟩, ?_⟩
  intro d
  by_cases hdim : dim = "undefined"
  · rw [hdim] at hc
    simp [ivFetch, ivCheck, ivInit, ivStore, hc, hdim]
  · simp [ivFetch, ivCheck, ivInit, ivStore, hc, hdim, hfac,
      div_mul_cancel₀ (conv d) hc0]

theorem required_field_check_witness :
    ivFetch (fun _ _ => some 1)
        (ivInit (fun _ _ => some 1) (fun t => t) "length" "angstrom" (some 5) none)
      = Except.ok 5 :=
  (required_field_check (fun _ _ => some 1) (fun t => t) "length" "angstrom" none 1
    rfl (by norm_num)).2.2 5

/-- Claim C10: `store(v)` followed by `fetch()` round-trips: with an
undefined dimension the stored and fetched value is exactly the converted
`v`; with a declared dimension `store` divides by the factor
`UnitMap[dimension][units]` and `fetch` multiplies by the same factor, so
`fetch` returns the converted `v` exactly. -/
theorem store_fetch_roundtrip (um : String → String → Option ℚ) (conv : ℚ → ℚ)
    (s : IVal) (v : ℚ) (c : ℚ)
    (hc : um s.dimension s.units = some c) (hc0 : c ≠ 0) (hvalid : s.valid = none) :
    ((s.dimension ≠ "undefined" → (ivStore um conv s v).value = some (conv v / c))
      ∧ (s.dimension = "undefined" → (ivStore um conv s v).value = some (conv v)))
    ∧ ivFetch um (ivStore um conv s v) = Except.ok (conv v) := by
  have hfac : (um s.dimension s.units).getD 1 = c := by rw [hc]; rfl
  refine ⟨⟨?_, ?_⟩, ?_⟩
  · intro hdim
    simp [ivStore, hdim, hfac]
  · intro hdim
    simp [ivStore, hdim]
  · by_cases hdim : s.dimension = "undefined"
    · rw [hdim] at hc
      simp [ivFetch, ivCheck, ivStore, hc, hdim, hvalid]
    · simp [ivFetch, ivCheck, ivStore, hc, hdim, hvalid, hfac,
        div_mul_cancel₀ (conv v) hc0]

theorem store_fetch_roundtrip_witness :
    ivFetch (fun _ _ => some 2)
        (ivStore (fun _ _ => some 2) (fun t => t)
          ⟨"mass", "gram", false, false, none, none⟩ 6)
      = Except.ok 6 :=
  (store_fetch_roundtrip (fun _ _ => some 2) (fun t => t)
    ⟨"mass", "gram", false, false, none, none⟩ 6 2 rfl (by norm_num) rfl).2

/-! ## `InputFFSocket` (`ipi/inputs/forcefields.py`) -/

/-- The declared default of the `port` field (line 99). -/
def ffsocket_port_default : ℤ := 65535

/-- `InputFFSocket.check` (lines 152-166), after `super().check()`: the
port range check (raise), the low-port warning, the slots range check and
the latency/timeout non-negativity checks, in source order.  The first
component records whether the low-port warning was emitted. -/
def ffsocketCheck (port slots : ℤ) (latency timeout : ℚ) : Bool × Except String Unit :=
  if port < 1 ∨ port > 65535 then
    (false, Except.error ("Port number " ++ toString port ++ " out of acceptable range."))
  else
    (decide (port < 1025),
      if slots < 1 ∨ slots > 5 then
        Except.error ("Slot number " ++ toString slots ++ " out of acceptable range.")
      else if latency < 0 then
        Except.error "Negative latency parameter specified."
      else if timeout < 0 then
        Except.error "Negative timeout parameter specified."
      else Except.ok ())

/-- Claim C7: with otherwise valid parameters, checking raises exactly for
port values outside 1-65535, warns and accepts exactly the port values
1-1024, and the declared default of the port field is 65535. -/
theorem port_check (port slots : ℤ) (latency timeout : ℚ)
    (hs1 : 1 ≤ slots) (hs2 : slots ≤ 5) (hl : 0 ≤ latency) (ht : 0 ≤ timeout) :
    ((∃ e, (ffsocketCheck port slots latency timeout).2 = Except.error e) ↔
      (port < 1 ∨ port > 65535))
    ∧ (((ffsocketCheck port slots latency timeout).1 = true
          ∧ (ffsocketCheck port slots latency timeout).2 = Except.ok ()) ↔
        (1 ≤ port ∧ port ≤ 1024))
    ∧ ffsocket_port_default = 65535 := by
  have hns : ¬(slots < 1 ∨ slots > 5) := by omega
  have hnl : ¬(latency < 0) := not_lt.2 hl
  have hnt : ¬(timeout < 0) := not_lt.2 ht
  by_cases hp : port < 1 ∨ port > 65535
  · refine ⟨⟨fun _ => hp, fun _ => ?_⟩, ⟨fun hok => ?_, fun hin => ?_⟩, rfl⟩
    · exact ⟨_, by rw [ffsocketCheck, if_pos hp]⟩
    · rw [ffsocketCheck, if_pos hp] at hok
      exact Except.noConfusion hok.2
    · exact absurd hp (by omega)
  · have hck : ffsocketCheck port slots latency timeout
        = (decide (port < 1025), Except.ok ()) := by
      rw [ffsocketCheck, if_neg hp, if_neg hns, if_neg hnl, if_neg hnt]
    refine ⟨⟨fun he => ?_, fun hin => absurd hin hp⟩, ⟨fun hok => ?_, fun hin => ?_⟩, rfl⟩
    · rcases he with ⟨e, he⟩
      rw [hck] at he
      exact Except.noConfusion he
    · rw [hck] at hok
      have := of_decide_eq_true hok.1
      omega
    · rw [hck]
      have hwarn : decide (port < 1025) = true := decide_eq_true (by omega)
      rw [hwarn]
      exact ⟨rfl, rfl⟩

theorem port_check_witness :
    (ffsocketCheck 80 4 (1 / 100) 0).1 = true
      ∧ (ffsocketCheck 80 4 (1 / 100) 0).2 = Except.ok () :=
  ((port_check 80 4 (1 / 100) 0 (by norm_num) (by norm_num) (by norm_num)
    (by norm_num)).2.1).2 (by norm_num)

end IPI

